import Mathlib

/-!
Shallow embedding of the HuMIDI MIDI library core (src/humidi.ts,
src/commands.ts, src/controlCommands.ts): protocol tables, message
decoding/dispatch, the subscription registry, the note-liveness tracker
and device lifecycle handling, together with proofs of the specified
properties.

JS `Map`s are modelled as association lists preserving insertion order
(`Map.set` replaces in place or appends, `Map.get` finds the first match,
`Map.delete` removes the entry); JS `Set`s are modelled as duplicate-free
lists preserving insertion order.  Event handlers are identified by
numeric ids (JS compares handlers by reference identity).  JS numbers in
the pitch-bend computation are modelled by rationals; every division
performed there is by the power of two 8192 with a small integral
numerator, which IEEE-754 doubles represent exactly, so the rational
model agrees with the JS semantics on all inputs.
-/

namespace HuMIDI

/-- `Commands` from src/commands.ts. -/
inductive Command where
  | noteoff
  | noteon
  | pitchbend
  | controlchange
deriving DecidableEq

/-- `commandIndex` from src/commands.ts: base status byte of each command range. -/
def commandIndex : Command → Nat
  | .noteoff => 128
  | .noteon => 144
  | .controlchange => 176
  | .pitchbend => 224

set_option maxHeartbeats 1000000

/-- `commandTable` from src/commands.ts: the literal status-byte lookup table. -/
def commandTableList : List (Nat × Command) :=
  [(128, Command.noteoff), (129, Command.noteoff), (130, Command.noteoff), (131, Command.noteoff),
   (132, Command.noteoff), (133, Command.noteoff), (134, Command.noteoff), (135, Command.noteoff),
   (136, Command.noteoff), (137, Command.noteoff), (138, Command.noteoff), (139, Command.noteoff),
   (140, Command.noteoff), (141, Command.noteoff), (142, Command.noteoff), (143, Command.noteoff),
   (144, Command.noteon), (145, Command.noteon), (146, Command.noteon), (147, Command.noteon),
   (148, Command.noteon), (149, Command.noteon), (150, Command.noteon), (151, Command.noteon),
   (152, Command.noteon), (153, Command.noteon), (154, Command.noteon), (155, Command.noteon),
   (156, Command.noteon), (157, Command.noteon), (158, Command.noteon), (159, Command.noteon),
   (176, Command.controlchange), (177, Command.controlchange),
   (178, Command.controlchange), (179, Command.controlchange),
   (180, Command.controlchange), (181, Command.controlchange),
   (182, Command.controlchange), (183, Command.controlchange),
   (184, Command.controlchange), (185, Command.controlchange),
   (186, Command.controlchange), (187, Command.controlchange),
   (188, Command.controlchange), (189, Command.controlchange),
   (190, Command.controlchange), (191, Command.controlchange),
   (224, Command.pitchbend), (225, Command.pitchbend), (226, Command.pitchbend),
   (227, Command.pitchbend), (228, Command.pitchbend), (229, Command.pitchbend),
   (230, Command.pitchbend), (231, Command.pitchbend), (232, Command.pitchbend),
   (233, Command.pitchbend), (234, Command.pitchbend), (235, Command.pitchbend),
   (236, Command.pitchbend), (237, Command.pitchbend), (238, Command.pitchbend),
   (239, Command.pitchbend)]

/-- Association-list `get`: first entry with the given key (JS `Map.get`). -/
def alGet {κ β : Type} [DecidableEq κ] : List (κ × β) → κ → Option β
  | [], _ => none
  | (k, v) :: rest, key => if k = key then some v else alGet rest key

/-- Association-list `set`: replace the entry in place, or append (JS `Map.set`). -/
def alSet {κ β : Type} [DecidableEq κ] : List (κ × β) → κ → β → List (κ × β)
  | [], key, v => [(key, v)]
  | (k, w) :: rest, key, v =>
    if k = key then (key, v) :: rest else (k, w) :: alSet rest key v

/-- Association-list `delete`: drop the entry with the given key (JS `Map.delete`). -/
def alDelete {κ β : Type} [DecidableEq κ] : List (κ × β) → κ → List (κ × β)
  | [], _ => []
  | (k, v) :: rest, key =>
    if k = key then alDelete rest key else (k, v) :: alDelete rest key

/-- JS `Set.add`: append if absent, no-op if present. -/
def setAdd {α : Type} [DecidableEq α] (s : List α) (x : α) : List α :=
  if x ∈ s then s else s ++ [x]

/-- JS `Set.delete`: remove the element. -/
def setDel {α : Type} [DecidableEq α] (s : List α) (x : α) : List α :=
  s.filter (fun y => y ≠ x)

/-- Status-byte lookup in the command table. -/
def commandTable (status : Nat) : Option Command :=
  alGet commandTableList status

/-- `ControlCommands` from src/controlCommands.ts. -/
inductive ControlCommand where
  | sustain
deriving DecidableEq

/-- `controlCommandTable` from src/controlCommands.ts: only controller 64 maps to sustain. -/
def controlCommandTable (control : Nat) : Option ControlCommand :=
  if control = 64 then some .sustain else none

/-- The `Event` kinds of src/humidi.ts. -/
inductive Event where
  | noteon
  | noteoff
  | pitchbend
  | sustainon
  | sustainoff
  | inputconnected
  | inputdisconnected
deriving DecidableEq

/-- Connection state of a device (`MIDIInputInfo.state`). -/
inductive DeviceState where
  | connected
  | disconnected
deriving DecidableEq

/-- The `MIDIInput` record: descriptor fields plus the per-device enabled flag. -/
structure MIDIInput where
  id : String
  name : String
  manufacturer : String
  state : DeviceState
  enabled : Bool
deriving DecidableEq

/-- Payloads of emitted events (`NoteOnEvent`, `NoteOffEvent`, `PitchBendEvent`,
`SustainEvent`, `InputEvent`). -/
inductive Payload where
  | noteOn (note velocity : Nat)
  | noteOff (note : Nat)
  | pitchBend (value : ℚ)
  | sustain (value : Nat)
  | inputRef (input : MIDIInput)
deriving DecidableEq

/-- One call to `HuMIDI.emit`: event kind, payload, and target channel
(-1 is the wildcard). -/
structure Emit where
  event : Event
  payload : Payload
  channel : Int
deriving DecidableEq

/-- Event handlers are identified by reference identity; we model them as ids. -/
abbrev EventHandler := Nat

/-- `eventHandlersByChannel`: channel → event kind → set of handlers. -/
abbrev Registry := List (Int × List (Event × List EventHandler))

/-- The static state of the `HuMIDI` class relevant to message processing. -/
structure HState where
  enabled : Bool
  handlers : Registry
  activeNotes : List (Int × List Nat)
  activeNotesByDevice : List (String × List (Int × List Nat))
  inputs : List (String × MIDIInput)
deriving DecidableEq

/-- Initial static state of the class. -/
def initState : HState :=
  { enabled := true, handlers := [], activeNotes := [], activeNotesByDevice := [], inputs := [] }

/-- `HuMIDI.on`: register a handler for (channel, event); channel defaults to -1. -/
def registryOn (reg : Registry) (event : Event) (handler : EventHandler) (channel : Int) :
    Registry :=
  let reg1 := if (alGet reg channel).isSome then reg else alSet reg channel []
  let channelHandlers := (alGet reg1 channel).getD []
  let channelHandlers1 :=
    if (alGet channelHandlers event).isSome then channelHandlers
    else alSet channelHandlers event []
  let eventHandlers := (alGet channelHandlers1 event).getD []
  alSet reg1 channel (alSet channelHandlers1 event (setAdd eventHandlers handler))

/-- `HuMIDI.getEventHandlers`: the handler set for (channel, event), if any. -/
def getEventHandlers (reg : Registry) (event : Event) (channel : Int) :
    Option (List EventHandler) :=
  (alGet reg channel).bind (fun channelHandlers => alGet channelHandlers event)

/-- `HuMIDI.emit`, viewed as the sequence of handler invocations it performs:
the (channel, event) set first, then — for a non-wildcard channel — the
wildcard set. -/
def emitInvocations (reg : Registry) (event : Event) (channel : Int) : List EventHandler :=
  ((getEventHandlers reg event channel).getD []) ++
    (if channel ≠ -1 then (getEventHandlers reg event (-1)).getD [] else [])

/-- Delivery of one emitted event to subscribers: the invoked handlers paired
with the payload-carrying emission each receives. -/
def deliver (reg : Registry) (e : Emit) : List (EventHandler × Emit) :=
  (emitInvocations reg e.event e.channel).map (fun h => (h, e))

/-- Delivery of a whole emission trace to subscribers. -/
def deliverAll (reg : Registry) (ems : List Emit) : List (EventHandler × Emit) :=
  ems.flatMap (deliver reg)

/-- `HuMIDI.trackNoteOn`: record a sounding note globally and, when a device id
is given, under that device. -/
def trackNoteOn (st : HState) (channel : Int) (note : Nat) (deviceId : Option String) :
    HState :=
  let an0 := if (alGet st.activeNotes channel).isSome then st.activeNotes
             else alSet st.activeNotes channel []
  let an := alSet an0 channel (setAdd ((alGet an0 channel).getD []) note)
  let anbd :=
    match deviceId with
    | none => st.activeNotesByDevice
    | some deviceId =>
      let m0 := if (alGet st.activeNotesByDevice deviceId).isSome then st.activeNotesByDevice
                else alSet st.activeNotesByDevice deviceId []
      let deviceNotes := (alGet m0 deviceId).getD []
      let dn0 := if (alGet deviceNotes channel).isSome then deviceNotes
                 else alSet deviceNotes channel []
      alSet m0 deviceId (alSet dn0 channel (setAdd ((alGet dn0 channel).getD []) note))
  { st with activeNotes := an, activeNotesByDevice := anbd }

/-- `HuMIDI.trackNoteOff`: remove a sounding note globally and under the device,
pruning channel entries that become empty and device entries that become empty. -/
def trackNoteOff (st : HState) (channel : Int) (note : Nat) (deviceId : Option String) :
    HState :=
  let an :=
    match alGet st.activeNotes channel with
    | none => st.activeNotes
    | some channelNotes =>
      let channelNotes1 := setDel channelNotes note
      if channelNotes1.isEmpty then alDelete st.activeNotes channel
      else alSet st.activeNotes channel channelNotes1
  let anbd :=
    match deviceId with
    | none => st.activeNotesByDevice
    | some deviceId =>
      match alGet st.activeNotesByDevice deviceId with
      | none => st.activeNotesByDevice
      | some deviceNotes =>
        let deviceNotes1 :=
          match alGet deviceNotes channel with
          | none => deviceNotes
          | some deviceChannelNotes =>
            let deviceChannelNotes1 := setDel deviceChannelNotes note
            if deviceChannelNotes1.isEmpty then alDelete deviceNotes channel
            else alSet deviceNotes channel deviceChannelNotes1
        if deviceNotes1.isEmpty then alDelete st.activeNotesByDevice deviceId
        else alSet st.activeNotesByDevice deviceId deviceNotes1
  { st with activeNotes := an, activeNotesByDevice := anbd }

/-- `HuMIDI.handleDeviceDisconnect`: emit a synthetic note-off for every note
still recorded under the device, then discard the device's tracking entry. -/
def handleDeviceDisconnect (st : HState) (deviceId : String) : HState × List Emit :=
  match alGet st.activeNotesByDevice deviceId with
  | none => (st, [])
  | some deviceNotes =>
    let ems := deviceNotes.flatMap
      (fun p => p.2.map (fun note => ⟨Event.noteoff, Payload.noteOff note, p.1⟩))
    ({ st with activeNotesByDevice := alDelete st.activeNotesByDevice deviceId }, ems)

/-- `HuMIDI.onNoteOff`: track the release and emit `NoteOff`. -/
def onNoteOff (st : HState) (channel : Int) (note : Nat) (deviceId : Option String) :
    HState × List Emit :=
  (trackNoteOff st channel note deviceId,
   [⟨Event.noteoff, Payload.noteOff note, channel⟩])

/-- `HuMIDI.onNoteOn`: a note-on with velocity 0 is re-classified as a note-off;
otherwise track the press and emit `NoteOn`. -/
def onNoteOn (st : HState) (channel : Int) (note velocity : Nat) (deviceId : Option String) :
    HState × List Emit :=
  if velocity = 0 then onNoteOff st channel note deviceId
  else
    (trackNoteOn st channel note deviceId,
     [⟨Event.noteon, Payload.noteOn note velocity, channel⟩])

/-- `HuMIDI.onPitchBend`: raw value `(msb <<< 7) + lsb`, normalized to
`(raw - 8192) / 8192`. -/
def onPitchBend (st : HState) (channel : Int) (lsb msb : Nat) : HState × List Emit :=
  let rawValue : ℚ := (msb : ℚ) * 128 + (lsb : ℚ)
  (st, [⟨Event.pitchbend, Payload.pitchBend ((rawValue - 8192) / 8192), channel⟩])

/-- `HuMIDI.onControlChange`: sustain (controller 64) splits at value 64;
unmapped controllers produce nothing. -/
def onControlChange (st : HState) (channel : Int) (control value : Nat) :
    HState × List Emit :=
  match controlCommandTable control with
  | some .sustain =>
    let eventType := if value ≥ 64 then Event.sustainon else Event.sustainoff
    (st, [⟨eventType, Payload.sustain value, channel⟩])
  | none => (st, [])

/-- The command dispatch in `HuMIDI.onMessage` after the gates: resolve the
command, compute the channel, and run the command's handler. -/
def processCommand (st : HState) (deviceId : Option String) (status data1 data2 : Nat) :
    HState × List Emit :=
  match commandTable status with
  | none => (st, [])
  | some command =>
    let channel : Int := (status : Int) - (commandIndex command : Int)
    match command with
    | .noteon => onNoteOn st channel data1 data2 deviceId
    | .noteoff => onNoteOff st channel data1 deviceId
    | .pitchbend => onPitchBend st channel data1 data2
    | .controlchange => onControlChange st channel data1 data2

/-- The per-device gate of `HuMIDI.onMessage`: a message is suppressed only
when its device id is present in the device map and that device is disabled. -/
def deviceGateBlocks (st : HState) : Option String → Bool
  | none => false
  | some inputId =>
    match alGet st.inputs inputId with
    | none => false
    | some input => !input.enabled

/-- `HuMIDI.onMessage`: global gate, then per-device gate, then command dispatch. -/
def onMessage (st : HState) (deviceId : Option String) (status data1 data2 : Nat) :
    HState × List Emit :=
  if !st.enabled then (st, [])
  else if deviceGateBlocks st deviceId then (st, [])
  else processCommand st deviceId status data1 data2

/-- Empty-string descriptor fields are normalized to fallback sentinels. -/
def orDefault (s fallback : String) : String :=
  if s = "" then fallback else s

/-- The disconnect branch of `HuMIDI.onStateChange`: build the incoming
descriptor, reuse the existing device record if present (creating one only for
a never-seen device), run disconnect cleanup, then emit `InputDisconnected`
carrying the record. -/
def onStateChangeDisconnected (st : HState) (portId portName portManufacturer : String) :
    HState × List Emit :=
  let inputInfo : MIDIInput :=
    { id := orDefault portId "unknown",
      name := orDefault portName "Unknown Device",
      manufacturer := orDefault portManufacturer "Unknown",
      state := .disconnected,
      enabled := true }
  let found := alGet st.inputs inputInfo.id
  let midiInput := found.getD inputInfo
  let st1 :=
    match found with
    | some _ => st
    | none => { st with inputs := alSet st.inputs inputInfo.id inputInfo }
  let r := handleDeviceDisconnect st1 inputInfo.id
  (r.1, r.2 ++ [⟨Event.inputdisconnected, Payload.inputRef midiInput, -1⟩])

/-- One externally observable operation driving the engine. -/
inductive Op where
  | message (deviceId : Option String) (status data1 data2 : Nat)
  | disconnect (deviceId : String)

/-- Run one operation. -/
def stepOp (st : HState) : Op → HState × List Emit
  | .message deviceId status data1 data2 => onMessage st deviceId status data1 data2
  | .disconnect deviceId => handleDeviceDisconnect st deviceId

/-- Run a sequence of operations, accumulating the emission trace. -/
def run (st : HState) : List Op → HState × List Emit
  | [] => (st, [])
  | op :: ops =>
    let r1 := stepOp st op
    let r2 := run r1.1 ops
    (r2.1, r1.2 ++ r2.2)

/-- The note action an emitted event represents for a given (channel, note):
`some true` for a note-on, `some false` for a note-off, `none` otherwise. -/
def emitNoteAction (e : Emit) (ch : Int) (n : Nat) : Option Bool :=
  match e.event, e.payload with
  | .noteon, .noteOn note _ => if e.channel = ch ∧ note = n then some true else none
  | .noteoff, .noteOff note => if e.channel = ch ∧ note = n then some false else none
  | _, _ => none

/-- The most recent note event for (channel, note) in an emission trace. -/
def lastNoteEvent (tr : List Emit) (ch : Int) (n : Nat) : Option Bool :=
  (tr.filterMap (fun e => emitNoteAction e ch n)).getLast?

/-- The note action a raw wire message represents for a given (channel, note):
`some true` for a note-on with positive velocity, `some false` for a note-off
or a velocity-0 note-on, `none` otherwise. -/
def opNoteAction (op : Op) (ch : Int) (n : Nat) : Option Bool :=
  match op with
  | .disconnect _ => none
  | .message _ status data1 data2 =>
    match commandTable status with
    | some .noteon =>
      if (status : Int) - 144 = ch ∧ data1 = n then some (data2 ≠ 0) else none
    | some .noteoff =>
      if (status : Int) - 128 = ch ∧ data1 = n then some false else none
    | _ => none

/-- The most recent note message for (channel, note) in an operation sequence. -/
def lastMsgNoteAction (ops : List Op) (ch : Int) (n : Nat) : Option Bool :=
  (ops.filterMap (fun op => opNoteAction op ch n)).getLast?

/-- Membership of a note in the global per-channel sounding-note set. -/
def noteInGlobal (st : HState) (ch : Int) (n : Nat) : Prop :=
  n ∈ (alGet st.activeNotes ch).getD []

instance (st : HState) (ch : Int) (n : Nat) : Decidable (noteInGlobal st ch n) := by
  unfold noteInGlobal
  infer_instance

end HuMIDI


namespace HuMIDI

theorem alGet_alSet {κ β : Type} [DecidableEq κ] (m : List (κ × β)) (k k' : κ) (v : β) :
    alGet (alSet m k v) k' = if k = k' then some v else alGet m k' := by
  induction m with
  | nil => simp [alSet, alGet]
  | cons p rest ih =>
    obtain ⟨a, b⟩ := p
    by_cases hak : a = k
    · subst hak
      by_cases h : a = k' <;> simp [alSet, alGet, h]
    · by_cases hak' : a = k'
      · subst hak'
        have hkk' : ¬k = a := fun hh => hak hh.symm
        simp [alSet, alGet, hak, hkk']
      · simp [alSet, alGet, hak, hak', ih]

theorem alGet_alDelete {κ β : Type} [DecidableEq κ] (m : List (κ × β)) (k k' : κ) :
    alGet (alDelete m k) k' = if k = k' then none else alGet m k' := by
  induction m with
  | nil => simp [alDelete, alGet]
  | cons p rest ih =>
    obtain ⟨a, b⟩ := p
    by_cases hak : a = k
    · subst hak
      by_cases h : a = k'
      · subst h
        simpa [alDelete, alGet] using ih
      · simp [alDelete, alGet, h, ih]
    · by_cases hak' : a = k'
      · subst hak'
        have hkk' : ¬k = a := fun hh => hak hh.symm
        simp [alDelete, alGet, hak, hkk']
      · simp [alDelete, alGet, hak, hak', ih]

theorem alGet_eq_none {κ β : Type} [DecidableEq κ] (m : List (κ × β)) (key : κ)
    (h : ∀ p ∈ m, p.1 ≠ key) : alGet m key = none := by
  induction m with
  | nil => rfl
  | cons p rest ih =>
    obtain ⟨a, b⟩ := p
    have ha : a ≠ key := h (a, b) (List.mem_cons_self _ _)
    simp only [alGet, ha, if_false, reduceIte]
    exact ih (fun q hq => h q (List.mem_cons_of_mem _ hq))

theorem mem_setAdd {α : Type} [DecidableEq α] (s : List α) (x y : α) :
    y ∈ setAdd s x ↔ y = x ∨ y ∈ s := by
  unfold setAdd
  by_cases hx : x ∈ s
  · simp only [hx, if_pos]
    constructor
    · exact Or.inr
    · rintro (rfl | h)
      · exact hx
      · exact h
  · simp [hx, List.mem_append, or_comm]

theorem mem_setDel {α : Type} [DecidableEq α] (s : List α) (x y : α) :
    y ∈ setDel s x ↔ y ∈ s ∧ y ≠ x := by
  simp [setDel]

theorem setAdd_ne_nil {α : Type} [DecidableEq α] (s : List α) (x : α) :
    setAdd s x ≠ [] := by
  unfold setAdd
  by_cases hx : x ∈ s
  · simp only [hx, if_pos]
    rintro rfl
    exact absurd hx (List.not_mem_nil x)
  · simp [hx]

theorem commandTable_eq (status : Nat) :
    commandTable status =
      if 128 ≤ status ∧ status ≤ 143 then some Command.noteoff
      else if 144 ≤ status ∧ status ≤ 159 then some Command.noteon
      else if 176 ≤ status ∧ status ≤ 191 then some Command.controlchange
      else if 224 ≤ status ∧ status ≤ 239 then some Command.pitchbend
      else none := by
  rcases Nat.lt_or_ge status 240 with h | h
  · interval_cases status <;> decide
  · have hkeys : ∀ p ∈ commandTableList, p.1 < 240 := by decide
    have hnone : commandTable status = none := by
      refine alGet_eq_none _ _ (fun p hp => ?_)
      have := hkeys p hp
      omega
    rw [hnone]
    have h1 : ¬(128 ≤ status ∧ status ≤ 143) := by omega
    have h2 : ¬(144 ≤ status ∧ status ≤ 159) := by omega
    have h3 : ¬(176 ≤ status ∧ status ≤ 191) := by omega
    have h4 : ¬(224 ≤ status ∧ status ≤ 239) := by omega
    simp [h1, h2, h3, h4]

end HuMIDI

namespace HuMIDI

theorem mem_emitInvocations (reg : Registry) (event : Event) (channel : Int)
    (h : EventHandler) :
    h ∈ emitInvocations reg event channel ↔
      h ∈ (getEventHandlers reg event channel).getD [] ∨
        (channel ≠ -1 ∧ h ∈ (getEventHandlers reg event (-1)).getD []) := by
  unfold emitInvocations
  by_cases hch : channel = -1
  · subst hch
    simp
  · simp [hch, List.mem_append]

theorem mem_deliverAll (reg : Registry) (ems : List Emit) (p : EventHandler × Emit)
    (hp : p ∈ deliverAll reg ems) : p.2 ∈ ems := by
  unfold deliverAll at hp
  rw [List.mem_flatMap] at hp
  obtain ⟨e, he, hpe⟩ := hp
  unfold deliver at hpe
  rw [List.mem_map] at hpe
  obtain ⟨h, _, rfl⟩ := hpe
  exact he

/-- C4: a channel-scoped emission reaches exactly the handlers of that
(channel, kind) set plus the wildcard set; a wildcard emission reaches exactly
the wildcard set. -/
theorem emit_fanout (reg : Registry) (event : Event) (channel : Int) (h : EventHandler) :
    (channel ≠ -1 →
      (h ∈ emitInvocations reg event channel ↔
        h ∈ (getEventHandlers reg event channel).getD [] ∨
          h ∈ (getEventHandlers reg event (-1)).getD [])) ∧
    (h ∈ emitInvocations reg event (-1) ↔ h ∈ (getEventHandlers reg event (-1)).getD []) := by
  constructor
  · intro hch
    rw [mem_emitInvocations]
    constructor
    · rintro (hc | ⟨_, hw⟩)
      · exact Or.inl hc
      · exact Or.inr hw
    · rintro (hc | hw)
      · exact Or.inl hc
      · exact Or.inr ⟨hch, hw⟩
  · rw [mem_emitInvocations]
    simp

theorem emit_fanout_witness :
    (0 : Int) ≠ -1 ∧
      ((7 : EventHandler) ∈ emitInvocations [(0, [(Event.noteon, [7])])] Event.noteon 0 ↔
        (7 : EventHandler) ∈ (getEventHandlers [(0, [(Event.noteon, [7])])] Event.noteon 0).getD [] ∨
          (7 : EventHandler) ∈
            (getEventHandlers [(0, [(Event.noteon, [7])])] Event.noteon (-1)).getD []) :=
  ⟨by decide, (emit_fanout [(0, [(Event.noteon, [7])])] Event.noteon 0 7).1 (by decide)⟩

/-- C10: one handler registered under both a concrete channel and the wildcard
is invoked twice by one emission on that channel, while registering it twice
under the same (channel, kind) deduplicates and yields a single invocation. -/
theorem double_registration_double_delivery (event : Event) (h : EventHandler) (channel : Int)
    (hch : channel ≠ -1) :
    (emitInvocations (registryOn (registryOn [] event h channel) event h (-1))
        event channel).count h = 2 ∧
    (emitInvocations (registryOn (registryOn [] event h channel) event h channel)
        event channel).count h = 1 := by
  have hne : ¬channel = -1 := hch
  constructor
  · simp [registryOn, alGet, alSet, setAdd, getEventHandlers, emitInvocations, hne]
  · simp [registryOn, alGet, alSet, setAdd, getEventHandlers, emitInvocations, hne]

theorem double_registration_double_delivery_witness :
    (emitInvocations (registryOn (registryOn [] Event.noteon 7 0) Event.noteon 7 (-1))
        Event.noteon 0).count 7 = 2 ∧
    (emitInvocations (registryOn (registryOn [] Event.noteon 7 0) Event.noteon 7 0)
        Event.noteon 0).count 7 = 1 :=
  double_registration_double_delivery Event.noteon 7 0 (by decide)

/-- C9: the per-device gate only suppresses ids present in the device map — a
message with an unregistered device id, or with no device id, passes the gate
and is processed normally. -/
theorem unknown_device_passes_gate (st : HState) (inputId : String)
    (status data1 data2 : Nat) (hid : alGet st.inputs inputId = none) :
    deviceGateBlocks st (some inputId) = false ∧
    deviceGateBlocks st none = false ∧
    (st.enabled = true →
      onMessage st (some inputId) status data1 data2 =
        processCommand st (some inputId) status data1 data2 ∧
      onMessage st none status data1 data2 = processCommand st none status data1 data2) := by
  have hgate : deviceGateBlocks st (some inputId) = false := by
    simp [deviceGateBlocks, hid]
  refine ⟨hgate, rfl, fun he => ⟨?_, ?_⟩⟩
  · simp [onMessage, he, hgate]
  · simp [onMessage, he, deviceGateBlocks]

theorem unknown_device_passes_gate_witness :
    deviceGateBlocks initState (some "ghost") = false ∧
    deviceGateBlocks initState none = false ∧
    (initState.enabled = true →
      onMessage initState (some "ghost") 144 60 100 =
        processCommand initState (some "ghost") 144 60 100 ∧
      onMessage initState none 144 60 100 = processCommand initState none 144 60 100) :=
  unknown_device_passes_gate initState "ghost" 144 60 100 rfl

end HuMIDI

namespace HuMIDI

theorem onMessage_open (st : HState) (deviceId : Option String) (status data1 data2 : Nat)
    (he : st.enabled = true) (hg : deviceGateBlocks st deviceId = false) :
    onMessage st deviceId status data1 data2 = processCommand st deviceId status data1 data2 := by
  simp [onMessage, he, hg]

theorem onMessage_eq_of_processCommand (st : HState) (deviceId : Option String)
    (status data1 data2 : Nat)
    (hp : processCommand st deviceId status data1 data2 = (st, [])) :
    onMessage st deviceId status data1 data2 = (st, []) := by
  unfold onMessage
  by_cases he : st.enabled
  · by_cases hg : deviceGateBlocks st deviceId
    · simp [he, hg]
    · simp [he, hg, hp]
  · simp [he]

theorem commandTable_of_noteon (status : Nat) (h1 : 144 ≤ status) (h2 : status ≤ 159) :
    commandTable status = some Command.noteon := by
  have hno : ¬(128 ≤ status ∧ status ≤ 143) := by omega
  simp [commandTable_eq, hno, h1, h2]

theorem commandTable_of_noteoff (status : Nat) (h1 : 128 ≤ status) (h2 : status ≤ 143) :
    commandTable status = some Command.noteoff := by
  simp [commandTable_eq, h1, h2]

theorem commandTable_of_controlchange (status : Nat) (h1 : 176 ≤ status) (h2 : status ≤ 191) :
    commandTable status = some Command.controlchange := by
  have hno : ¬(128 ≤ status ∧ status ≤ 143) := by omega
  have hno2 : ¬(144 ≤ status ∧ status ≤ 159) := by omega
  simp [commandTable_eq, hno, hno2, h1, h2]

theorem commandTable_of_pitchbend (status : Nat) (h1 : 224 ≤ status) (h2 : status ≤ 239) :
    commandTable status = some Command.pitchbend := by
  have hno : ¬(128 ≤ status ∧ status ≤ 143) := by omega
  have hno2 : ¬(144 ≤ status ∧ status ≤ 159) := by omega
  have hno3 : ¬(176 ≤ status ∧ status ≤ 191) := by omega
  simp [commandTable_eq, hno, hno2, hno3, h1, h2]

/-- C6: a status byte outside the four supported ranges produces no event and
leaves the whole state (registry, tracker, devices) unchanged, and a
ControlChange whose controller number is not 64 likewise produces no event. -/
theorem unsupported_message_silent (st : HState) (deviceId : Option String)
    (status data1 data2 : Nat) :
    ((¬(128 ≤ status ∧ status ≤ 143) ∧ ¬(144 ≤ status ∧ status ≤ 159) ∧
      ¬(176 ≤ status ∧ status ≤ 191) ∧ ¬(224 ≤ status ∧ status ≤ 239)) →
      onMessage st deviceId status data1 data2 = (st, [])) ∧
    (176 ≤ status → status ≤ 191 → data1 ≠ 64 →
      onMessage st deviceId status data1 data2 = (st, [])) := by
  constructor
  · rintro ⟨h1, h2, h3, h4⟩
    have hct : commandTable status = none := by
      simp [commandTable_eq, h1, h2, h3, h4]
    exact onMessage_eq_of_processCommand _ _ _ _ _ (by simp [processCommand, hct])
  · intro h1 h2 hd1
    have hct : commandTable status = some Command.controlchange :=
      commandTable_of_controlchange status h1 h2
    refine onMessage_eq_of_processCommand _ _ _ _ _ ?_
    simp [processCommand, hct, onControlChange, controlCommandTable, hd1]

theorem unsupported_message_silent_witness :
    onMessage initState none 208 10 20 = (initState, []) ∧
    onMessage initState none 176 65 127 = (initState, []) :=
  ⟨(unsupported_message_silent initState none 208 10 20).1 (by decide),
   (unsupported_message_silent initState none 176 65 127).2 (by decide) (by decide) (by decide)⟩

theorem processCommand_no_noteOn_zero (st : HState) (deviceId : Option String)
    (status data1 data2 : Nat) (e : Emit)
    (he : e ∈ (processCommand st deviceId status data1 data2).2) (n : Nat) :
    e.payload ≠ Payload.noteOn n 0 := by
  unfold processCommand at he
  cases hct : commandTable status with
  | none =>
    rw [hct] at he
    simp at he
  | some cmd =>
    rw [hct] at he
    cases cmd with
    | noteon =>
      dsimp only [onNoteOn, onNoteOff] at he
      by_cases hv : data2 = 0
      · rw [if_pos hv] at he
        simp only [List.mem_singleton] at he
        subst he
        simp
      · rw [if_neg hv] at he
        simp only [List.mem_singleton] at he
        subst he
        simp only [ne_eq, Payload.noteOn.injEq, not_and]
        intro _ h0
        exact hv h0
    | noteoff =>
      dsimp only [onNoteOff] at he
      simp only [List.mem_singleton] at he
      subst he
      simp
    | pitchbend =>
      dsimp only [onPitchBend] at he
      simp only [List.mem_singleton] at he
      subst he
      simp
    | controlchange =>
      dsimp only [onControlChange] at he
      cases hcc : controlCommandTable data1 with
      | none =>
        rw [hcc] at he
        simp at he
      | some c =>
        cases c
        rw [hcc] at he
        simp only [List.mem_singleton] at he
        subst he
        simp

theorem onMessage_no_noteOn_zero (st : HState) (deviceId : Option String)
    (status data1 data2 : Nat) (e : Emit)
    (he : e ∈ (onMessage st deviceId status data1 data2).2) (n : Nat) :
    e.payload ≠ Payload.noteOn n 0 := by
  unfold onMessage at he
  by_cases hen : st.enabled
  · by_cases hg : deviceGateBlocks st deviceId
    · simp [hen, hg] at he
    · simp only [hen, hg, Bool.not_true, Bool.false_eq_true, if_false, if_neg] at he
      exact processCommand_no_noteOn_zero st deviceId status data1 data2 e he n
  · simp [hen] at he

/-- C1: a status byte in [144,159] with positive velocity emits exactly one
NoteOn with the message's note and velocity on channel status − 144; with
velocity 0 it emits exactly one NoteOff for that note on the same channel; and
no processed message ever emits — or delivers to any subscriber — a NoteOn
with velocity 0. -/
theorem noteOn_decode (st : HState) (deviceId : Option String) (status data1 data2 : Nat)
    (he : st.enabled = true) (hg : deviceGateBlocks st deviceId = false)
    (h1 : 144 ≤ status) (h2 : status ≤ 159) :
    (data2 ≠ 0 → (onMessage st deviceId status data1 data2).2 =
      [⟨Event.noteon, Payload.noteOn data1 data2, (status : Int) - 144⟩]) ∧
    (data2 = 0 → (onMessage st deviceId status data1 data2).2 =
      [⟨Event.noteoff, Payload.noteOff data1, (status : Int) - 144⟩]) ∧
    (∀ (st' : HState) (dev' : Option String) (s' d1' d2' : Nat) (e : Emit) (n : Nat),
      e ∈ (onMessage st' dev' s' d1' d2').2 → e.payload ≠ Payload.noteOn n 0) ∧
    (∀ (reg : Registry) (st' : HState) (dev' : Option String) (s' d1' d2' : Nat)
      (p : EventHandler × Emit) (n : Nat),
      p ∈ deliverAll reg (onMessage st' dev' s' d1' d2').2 →
        p.2.payload ≠ Payload.noteOn n 0) := by
  have hct : commandTable status = some Command.noteon := commandTable_of_noteon status h1 h2
  refine ⟨fun hv => ?_, fun hv => ?_,
    fun st' dev' s' d1' d2' e n hmem => onMessage_no_noteOn_zero st' dev' s' d1' d2' e hmem n,
    ?_⟩
  · rw [onMessage_open st deviceId status data1 data2 he hg]
    simp [processCommand, hct, onNoteOn, hv, commandIndex]
  · rw [onMessage_open st deviceId status data1 data2 he hg]
    simp [processCommand, hct, onNoteOn, onNoteOff, hv, commandIndex]
  · intro reg st' dev' s' d1' d2' p n hp
    exact onMessage_no_noteOn_zero st' dev' s' d1' d2' p.2
      (mem_deliverAll reg _ p hp) n

theorem noteOn_decode_witness :
    (onMessage initState none 145 60 100).2 =
      [⟨Event.noteon, Payload.noteOn 60 100, (145 : Int) - 144⟩] ∧
    (onMessage initState none 145 60 0).2 =
      [⟨Event.noteoff, Payload.noteOff 60, (145 : Int) - 144⟩] :=
  ⟨(noteOn_decode initState none 145 60 100 rfl rfl (by decide) (by decide)).1 (by decide),
   (noteOn_decode initState none 145 60 0 rfl rfl (by decide) (by decide)).2.1 rfl⟩

/-- C7: a pitch-bend message emits value ((data2 <<< 7) + data1 − 8192) / 8192
on channel status − 224; raw 0 gives exactly −1, raw 8192 gives exactly 0, and
raw 16383 gives 16383/8192 − 1. -/
theorem pitchBend_value (st : HState) (deviceId : Option String) (status data1 data2 : Nat)
    (he : st.enabled = true) (hg : deviceGateBlocks st deviceId = false)
    (h1 : 224 ≤ status) (h2 : status ≤ 239) :
    onMessage st deviceId status data1 data2 =
      (st, [⟨Event.pitchbend,
             Payload.pitchBend (((data2 : ℚ) * 128 + (data1 : ℚ) - 8192) / 8192),
             (status : Int) - 224⟩]) ∧
    (∀ ch : Int, (onPitchBend st ch 0 0).2 =
      [⟨Event.pitchbend, Payload.pitchBend (-1), ch⟩]) ∧
    (∀ ch : Int, (onPitchBend st ch 0 64).2 =
      [⟨Event.pitchbend, Payload.pitchBend 0, ch⟩]) ∧
    (∀ ch : Int, (onPitchBend st ch 127 127).2 =
      [⟨Event.pitchbend, Payload.pitchBend ((16383 : ℚ) / 8192 - 1), ch⟩]) := by
  have hct : commandTable status = some Command.pitchbend := commandTable_of_pitchbend status h1 h2
  refine ⟨?_, fun ch => ?_, fun ch => ?_, fun ch => ?_⟩
  · rw [onMessage_open st deviceId status data1 data2 he hg]
    simp [processCommand, hct, onPitchBend, commandIndex]
  · simp only [onPitchBend, Emit.mk.injEq, List.cons.injEq, and_true, true_and]
    norm_num
  · simp only [onPitchBend, Emit.mk.injEq, List.cons.injEq, and_true, true_and]
    norm_num
  · simp only [onPitchBend, Emit.mk.injEq, List.cons.injEq, and_true, true_and]
    norm_num

theorem pitchBend_value_witness :
    onMessage initState none 224 0 64 =
      (initState, [⟨Event.pitchbend,
                    Payload.pitchBend (((64 : ℚ) * 128 + (0 : ℚ) - 8192) / 8192),
                    (224 : Int) - 224⟩]) :=
  (pitchBend_value initState none 224 0 64 rfl rfl (by decide) (by decide)).1

/-- C8: a ControlChange with controller 64 emits SustainOn when value ≥ 64 and
SustainOff when value < 64, on channel status − 176; boundary value 64 maps to
SustainOn and 63 to SustainOff; an unmapped controller number emits nothing. -/
theorem controlChange_sustain (st : HState) (deviceId : Option String) (status : Nat)
    (he : st.enabled = true) (hg : deviceGateBlocks st deviceId = false)
    (h1 : 176 ≤ status) (h2 : status ≤ 191) :
    (∀ data2 : Nat, onMessage st deviceId status 64 data2 =
      (st, [⟨if 64 ≤ data2 then Event.sustainon else Event.sustainoff,
             Payload.sustain data2, (status : Int) - 176⟩])) ∧
    onMessage st deviceId status 64 64 =
      (st, [⟨Event.sustainon, Payload.sustain 64, (status : Int) - 176⟩]) ∧
    onMessage st deviceId status 64 63 =
      (st, [⟨Event.sustainoff, Payload.sustain 63, (status : Int) - 176⟩]) ∧
    (∀ data1 data2 : Nat, controlCommandTable data1 = none →
      onMessage st deviceId status data1 data2 = (st, [])) := by
  have hct : commandTable status = some Command.controlchange :=
    commandTable_of_controlchange status h1 h2
  have hmain : ∀ data2 : Nat, onMessage st deviceId status 64 data2 =
      (st, [⟨if 64 ≤ data2 then Event.sustainon else Event.sustainoff,
             Payload.sustain data2, (status : Int) - 176⟩]) := by
    intro data2
    rw [onMessage_open st deviceId status 64 data2 he hg]
    simp [processCommand, hct, onControlChange, controlCommandTable, commandIndex, ge_iff_le]
  refine ⟨hmain, ?_, ?_, ?_⟩
  · rw [hmain 64]
    norm_num
  · rw [hmain 63]
    norm_num
  · intro data1 data2 hcc
    rw [onMessage_open st deviceId status data1 data2 he hg]
    simp [processCommand, hct, onControlChange, hcc]

theorem controlChange_sustain_witness :
    onMessage initState none 176 64 64 =
      (initState, [⟨Event.sustainon, Payload.sustain 64, (176 : Int) - 176⟩]) ∧
    onMessage initState none 176 64 63 =
      (initState, [⟨Event.sustainoff, Payload.sustain 63, (176 : Int) - 176⟩]) :=
  ⟨(controlChange_sustain initState none 176 rfl rfl (by decide) (by decide)).2.1,
   (controlChange_sustain initState none 176 rfl rfl (by decide) (by decide)).2.2.1⟩

end HuMIDI

namespace HuMIDI

/-- The per-channel note sets recorded under one device. -/
def deviceNoteSet (st : HState) (deviceId : String) : List (Int × List Nat) :=
  (alGet st.activeNotesByDevice deviceId).getD []

/-- The synthetic note-off emissions produced for one device's recorded notes. -/
def syntheticNoteOffs (deviceNotes : List (Int × List Nat)) : List Emit :=
  deviceNotes.flatMap
    (fun p => p.2.map (fun note => ⟨Event.noteoff, Payload.noteOff note, p.1⟩))

theorem count_syntheticNoteOffs_of_not_mem (dn : List (Int × List Nat)) (ch : Int) (n : Nat)
    (h : ch ∉ dn.map Prod.fst) :
    (syntheticNoteOffs dn).count ⟨Event.noteoff, Payload.noteOff n, ch⟩ = 0 := by
  rw [List.count_eq_zero]
  intro hmem
  unfold syntheticNoteOffs at hmem
  rw [List.mem_flatMap] at hmem
  obtain ⟨p, hp, hin⟩ := hmem
  rw [List.mem_map] at hin
  obtain ⟨note, _, heq⟩ := hin
  apply h
  rw [List.mem_map]
  refine ⟨p, hp, ?_⟩
  have := congrArg Emit.channel heq
  simpa using this

theorem count_syntheticNoteOffs (dn : List (Int × List Nat)) (ch : Int) (n : Nat)
    (hkeys : (dn.map Prod.fst).Nodup) (hnotes : ∀ p ∈ dn, p.2.Nodup) :
    (syntheticNoteOffs dn).count ⟨Event.noteoff, Payload.noteOff n, ch⟩ =
      if n ∈ (alGet dn ch).getD [] then 1 else 0 := by
  induction dn with
  | nil => simp [syntheticNoteOffs, alGet]
  | cons p rest ih =>
    obtain ⟨a, s⟩ := p
    have hcons : (a :: rest.map Prod.fst).Nodup := by simpa using hkeys
    have hkeys' : (rest.map Prod.fst).Nodup := (List.nodup_cons.mp hcons).2
    have hanotin : a ∉ rest.map Prod.fst := (List.nodup_cons.mp hcons).1
    have hs : s.Nodup := hnotes (a, s) (List.mem_cons_self _ _)
    have hnotes' : ∀ q ∈ rest, q.2.Nodup := fun q hq => hnotes q (List.mem_cons_of_mem _ hq)
    have hsplit : syntheticNoteOffs ((a, s) :: rest) =
        s.map (fun note => ⟨Event.noteoff, Payload.noteOff note, a⟩) ++ syntheticNoteOffs rest := by
      simp [syntheticNoteOffs]
    rw [hsplit, List.count_append]
    by_cases hach : a = ch
    · subst hach
      have hrest : (syntheticNoteOffs rest).count ⟨Event.noteoff, Payload.noteOff n, a⟩ = 0 :=
        count_syntheticNoteOffs_of_not_mem rest a n hanotin
      rw [hrest]
      have hinj : Function.Injective
          (fun note => (⟨Event.noteoff, Payload.noteOff note, a⟩ : Emit)) := by
        intro x y hxy
        simpa using hxy
      have hmap : (s.map (fun note => (⟨Event.noteoff, Payload.noteOff note, a⟩ : Emit))).count
          ⟨Event.noteoff, Payload.noteOff n, a⟩ = s.count n :=
        List.count_map_of_injective s _ hinj n
      rw [hmap]
      by_cases hn : n ∈ s
      · rw [List.count_eq_one_of_mem hs hn]
        simp [alGet, hn]
      · rw [List.count_eq_zero.mpr hn]
        simp [alGet, hn]
    · have hmap : (s.map (fun note => (⟨Event.noteoff, Payload.noteOff note, a⟩ : Emit))).count
          ⟨Event.noteoff, Payload.noteOff n, ch⟩ = 0 := by
        rw [List.count_eq_zero]
        intro hmem
        rw [List.mem_map] at hmem
        obtain ⟨note, _, heq⟩ := hmem
        have := congrArg Emit.channel heq
        simp at this
        exact hach this
      rw [hmap, Nat.zero_add]
      simp only [alGet, if_neg hach]
      exact ih hkeys' hnotes'

/-- C5: disconnect cleanup removes the device's whole tracking entry, is
idempotent (a second disconnect finds nothing and emits nothing), leaves other
devices' entries untouched, and emits exactly one synthetic NoteOff for each
(channel, note) recorded under the device and none for any other pair. -/
theorem handleDisconnect_cleanup (st : HState) (deviceId : String)
    (hkeys : ((deviceNoteSet st deviceId).map Prod.fst).Nodup)
    (hnotes : ∀ p ∈ deviceNoteSet st deviceId, p.2.Nodup) :
    alGet (handleDeviceDisconnect st deviceId).1.activeNotesByDevice deviceId = none ∧
    handleDeviceDisconnect (handleDeviceDisconnect st deviceId).1 deviceId =
      ((handleDeviceDisconnect st deviceId).1, []) ∧
    (∀ d', d' ≠ deviceId →
      alGet (handleDeviceDisconnect st deviceId).1.activeNotesByDevice d' =
        alGet st.activeNotesByDevice d') ∧
    (∀ (ch : Int) (n : Nat),
      (handleDeviceDisconnect st deviceId).2.count ⟨Event.noteoff, Payload.noteOff n, ch⟩ =
        if n ∈ (alGet (deviceNoteSet st deviceId) ch).getD [] then 1 else 0) := by
  cases hdev : alGet st.activeNotesByDevice deviceId with
  | none =>
    have hr : handleDeviceDisconnect st deviceId = (st, []) := by
      unfold handleDeviceDisconnect
      rw [hdev]
    rw [hr]
    refine ⟨hdev, by rw [hr], fun d' _ => rfl, fun ch n => ?_⟩
    unfold deviceNoteSet
    rw [hdev]
    simp [alGet]
  | some dn =>
    have hdns : deviceNoteSet st deviceId = dn := by
      unfold deviceNoteSet
      rw [hdev]
      rfl
    have hr : handleDeviceDisconnect st deviceId =
        ({ st with activeNotesByDevice := alDelete st.activeNotesByDevice deviceId },
         syntheticNoteOffs dn) := by
      unfold handleDeviceDisconnect
      rw [hdev]
      rfl
    rw [hr]
    have hgone : alGet (alDelete st.activeNotesByDevice deviceId) deviceId = none := by
      rw [alGet_alDelete]
      simp
    refine ⟨hgone, ?_, fun d' hd' => ?_, fun ch n => ?_⟩
    · unfold handleDeviceDisconnect
      rw [show ({ st with activeNotesByDevice := alDelete st.activeNotesByDevice deviceId } :
          HState).activeNotesByDevice = alDelete st.activeNotesByDevice deviceId from rfl]
      rw [hgone]
    · rw [show ({ st with activeNotesByDevice := alDelete st.activeNotesByDevice deviceId } :
          HState).activeNotesByDevice = alDelete st.activeNotesByDevice deviceId from rfl]
      rw [alGet_alDelete]
      rw [if_neg (fun hh => hd' hh.symm)]
    · rw [hdns] at hkeys hnotes ⊢
      exact count_syntheticNoteOffs dn ch n hkeys hnotes

/-- Concrete state for the C5 witness: two devices each holding note 60 on
channel 0. -/
def twoDeviceState : HState :=
  { initState with
      activeNotesByDevice := [("d1", [(0, [60])]), ("d2", [(0, [60])])] }

theorem handleDisconnect_cleanup_witness :
    alGet (handleDeviceDisconnect twoDeviceState "d1").1.activeNotesByDevice "d1" = none ∧
    alGet (handleDeviceDisconnect twoDeviceState "d1").1.activeNotesByDevice "d2" =
      alGet twoDeviceState.activeNotesByDevice "d2" ∧
    ((handleDeviceDisconnect twoDeviceState "d1").2.count
        ⟨Event.noteoff, Payload.noteOff 60, 0⟩ =
      if 60 ∈ (alGet (deviceNoteSet twoDeviceState "d1") 0).getD [] then 1 else 0) ∧
    handleDeviceDisconnect (handleDeviceDisconnect twoDeviceState "d1").1 "d1" =
      ((handleDeviceDisconnect twoDeviceState "d1").1, []) := by
  have h := handleDisconnect_cleanup twoDeviceState "d1" (by decide) (by decide)
  exact ⟨h.1, h.2.2.1 "d2" (by decide), h.2.2.2 0 60, h.2.1⟩

end HuMIDI

namespace HuMIDI

/-- A state in which device "dev1" is registered and connected. -/
def connectedDeviceState : HState :=
  { initState with
      inputs := [("dev1", ⟨"dev1", "Dev", "M", DeviceState.connected, true⟩)] }

/-- C3 (code evaluation at the failing input): when a disconnect notification
arrives for a device already in the device map, the stored record is reused
unchanged — it is not removed, but its state field is NOT updated either: both
the stored record and the record carried by the InputDisconnected emission
still report `connected`. -/
theorem disconnect_keeps_stale_state :
    alGet (onStateChangeDisconnected connectedDeviceState "dev1" "Dev" "M").1.inputs "dev1" =
      some ⟨"dev1", "Dev", "M", DeviceState.connected, true⟩ ∧
    (onStateChangeDisconnected connectedDeviceState "dev1" "Dev" "M").2 =
      [⟨Event.inputdisconnected,
        Payload.inputRef ⟨"dev1", "Dev", "M", DeviceState.connected, true⟩, -1⟩] := by
  constructor
  · rfl
  · rfl

end HuMIDI


namespace HuMIDI

/-- How a note action updates membership knowledge: a recorded action forces
the new membership value, no action leaves it as before. -/
def noteActionApply : Option Bool → Prop → Prop
  | some b, _ => b = true
  | none, p => p

theorem trackNoteOn_alGet (st : HState) (c : Int) (note : Nat) (dev : Option String)
    (ch : Int) :
    alGet (trackNoteOn st c note dev).activeNotes ch =
      if c = ch then some (setAdd ((alGet st.activeNotes c).getD []) note)
      else alGet st.activeNotes ch := by
  cases hx : alGet st.activeNotes c with
  | some s =>
    by_cases hc : c = ch
    · subst hc
      simp [trackNoteOn, hx, alGet_alSet]
    · simp [trackNoteOn, hx, alGet_alSet, hc]
  | none =>
    by_cases hc : c = ch
    · subst hc
      simp [trackNoteOn, hx, alGet_alSet]
    · simp [trackNoteOn, hx, alGet_alSet, hc]

theorem trackNoteOff_alGet (st : HState) (c : Int) (note : Nat) (dev : Option String)
    (ch : Int) :
    alGet (trackNoteOff st c note dev).activeNotes ch =
      if c = ch then
        (match alGet st.activeNotes c with
         | none => none
         | some s => if (setDel s note).isEmpty then none else some (setDel s note))
      else alGet st.activeNotes ch := by
  cases hx : alGet st.activeNotes c with
  | none =>
    by_cases hc : c = ch
    · subst hc
      simp [trackNoteOff, hx]
    · simp [trackNoteOff, hx, hc]
  | some s =>
    by_cases hemp : (setDel s note).isEmpty
    · by_cases hc : c = ch
      · subst hc
        simp [trackNoteOff, hx, hemp, alGet_alDelete]
      · simp [trackNoteOff, hx, hemp, alGet_alDelete, hc]
    · by_cases hc : c = ch
      · subst hc
        simp [trackNoteOff, hx, hemp, alGet_alSet]
      · simp [trackNoteOff, hx, hemp, alGet_alSet, hc]

theorem G_trackNoteOn (st : HState) (c : Int) (note : Nat) (dev : Option String)
    (ch : Int) (n : Nat) :
    noteInGlobal (trackNoteOn st c note dev) ch n ↔
      (c = ch ∧ n = note) ∨ noteInGlobal st ch n := by
  unfold noteInGlobal
  rw [trackNoteOn_alGet]
  by_cases hc : c = ch
  · subst hc
    simp [mem_setAdd]
  · simp [hc]

theorem G_trackNoteOff (st : HState) (c : Int) (note : Nat) (dev : Option String)
    (ch : Int) (n : Nat) :
    noteInGlobal (trackNoteOff st c note dev) ch n ↔
      noteInGlobal st ch n ∧ ¬(c = ch ∧ n = note) := by
  unfold noteInGlobal
  rw [trackNoteOff_alGet]
  by_cases hc : c = ch
  · subst hc
    cases hm : alGet st.activeNotes c with
    | none => simp
    | some s =>
      by_cases hemp : (setDel s note).isEmpty
      · have hnil : setDel s note = [] := by rwa [List.isEmpty_iff] at hemp
        simp only [hemp, reduceIte, Option.getD_none, Option.getD_some, List.not_mem_nil,
          false_iff, not_and, not_not, true_and]
        intro hmem
        by_contra hne
        have hsd : n ∈ setDel s note := (mem_setDel s note n).mpr ⟨hmem, fun h0 => hne h0⟩
        rw [hnil] at hsd
        exact absurd hsd (List.not_mem_nil n)
      · simp [hemp, mem_setDel]
  · simp [hc]

theorem handleDeviceDisconnect_fields (st : HState) (d : String) :
    (handleDeviceDisconnect st d).1.enabled = st.enabled ∧
    (handleDeviceDisconnect st d).1.inputs = st.inputs ∧
    (handleDeviceDisconnect st d).1.activeNotes = st.activeNotes := by
  unfold handleDeviceDisconnect
  cases alGet st.activeNotesByDevice d <;> exact ⟨rfl, rfl, rfl⟩

theorem trackNoteOn_enabled (st : HState) (c : Int) (note : Nat) (dev : Option String) :
    (trackNoteOn st c note dev).enabled = st.enabled := rfl

theorem trackNoteOn_inputs (st : HState) (c : Int) (note : Nat) (dev : Option String) :
    (trackNoteOn st c note dev).inputs = st.inputs := rfl

theorem trackNoteOff_enabled (st : HState) (c : Int) (note : Nat) (dev : Option String) :
    (trackNoteOff st c note dev).enabled = st.enabled := rfl

theorem trackNoteOff_inputs (st : HState) (c : Int) (note : Nat) (dev : Option String) :
    (trackNoteOff st c note dev).inputs = st.inputs := rfl

theorem onNoteOn_state (st : HState) (c : Int) (note vel : Nat) (dev : Option String) :
    (onNoteOn st c note vel dev).1 =
      if vel = 0 then trackNoteOff st c note dev else trackNoteOn st c note dev := by
  unfold onNoteOn onNoteOff
  by_cases hv : vel = 0
  · rw [if_pos hv, if_pos hv]
  · rw [if_neg hv, if_neg hv]

theorem onControlChange_state (st : HState) (c : Int) (control value : Nat) :
    (onControlChange st c control value).1 = st := by
  unfold onControlChange
  cases controlCommandTable control with
  | none => rfl
  | some cc =>
    cases cc
    rfl

theorem processCommand_shape (st : HState) (dev : Option String) (s d1 d2 : Nat) :
    (processCommand st dev s d1 d2).1 = st ∨
    (∃ c note, (processCommand st dev s d1 d2).1 = trackNoteOn st c note dev) ∨
    (∃ c note, (processCommand st dev s d1 d2).1 = trackNoteOff st c note dev) := by
  unfold processCommand
  cases commandTable s with
  | none => exact Or.inl rfl
  | some cmd =>
    cases cmd with
    | noteon =>
      dsimp only
      rw [onNoteOn_state]
      by_cases hv : d2 = 0
      · rw [if_pos hv]
        exact Or.inr (Or.inr ⟨_, _, rfl⟩)
      · rw [if_neg hv]
        exact Or.inr (Or.inl ⟨_, _, rfl⟩)
    | noteoff =>
      exact Or.inr (Or.inr ⟨_, _, rfl⟩)
    | pitchbend =>
      exact Or.inl rfl
    | controlchange =>
      dsimp only
      exact Or.inl (onControlChange_state st _ d1 d2)

theorem onMessage_shape (st : HState) (dev : Option String) (s d1 d2 : Nat) :
    (onMessage st dev s d1 d2).1 = st ∨
    (∃ c note, (onMessage st dev s d1 d2).1 = trackNoteOn st c note dev) ∨
    (∃ c note, (onMessage st dev s d1 d2).1 = trackNoteOff st c note dev) := by
  unfold onMessage
  by_cases hb : (!st.enabled) = true
  · rw [if_pos hb]
    exact Or.inl rfl
  · rw [if_neg hb]
    by_cases hg : deviceGateBlocks st dev = true
    · rw [if_pos hg]
      exact Or.inl rfl
    · rw [if_neg hg]
      exact processCommand_shape st dev s d1 d2

theorem stepOp_fields (st : HState) (op : Op) :
    (stepOp st op).1.enabled = st.enabled ∧ (stepOp st op).1.inputs = st.inputs := by
  cases op with
  | message dev s d1 d2 =>
    rcases onMessage_shape st dev s d1 d2 with h1 | ⟨c, note, h1⟩ | ⟨c, note, h1⟩ <;>
      rw [show stepOp st (Op.message dev s d1 d2) = onMessage st dev s d1 d2 from rfl, h1]
    · exact ⟨rfl, rfl⟩
    · exact ⟨trackNoteOn_enabled st c note dev, trackNoteOn_inputs st c note dev⟩
    · exact ⟨trackNoteOff_enabled st c note dev, trackNoteOff_inputs st c note dev⟩
  | disconnect d =>
    exact ⟨(handleDeviceDisconnect_fields st d).1, (handleDeviceDisconnect_fields st d).2.1⟩

theorem trackNoteOn_noEmpty (st : HState) (c : Int) (note : Nat) (dev : Option String)
    (h : ∀ ch, alGet st.activeNotes ch ≠ some []) :
    ∀ ch, alGet (trackNoteOn st c note dev).activeNotes ch ≠ some [] := by
  intro ch
  rw [trackNoteOn_alGet]
  by_cases hc : c = ch
  · rw [if_pos hc]
    intro heq
    exact setAdd_ne_nil _ _ (Option.some.inj heq)
  · rw [if_neg hc]
    exact h ch

theorem trackNoteOff_noEmpty (st : HState) (c : Int) (note : Nat) (dev : Option String)
    (h : ∀ ch, alGet st.activeNotes ch ≠ some []) :
    ∀ ch, alGet (trackNoteOff st c note dev).activeNotes ch ≠ some [] := by
  intro ch
  rw [trackNoteOff_alGet]
  by_cases hc : c = ch
  · rw [if_pos hc]
    cases hm : alGet st.activeNotes c with
    | none => simp
    | some s =>
      by_cases hemp : (setDel s note).isEmpty
      · simp [hemp]
      · have hne : setDel s note ≠ [] := by
          intro h0
          exact hemp (by rw [h0]; rfl)
        simp [hemp, hne]
  · rw [if_neg hc]
    exact h ch

theorem stepOp_noEmpty (st : HState) (op : Op)
    (h : ∀ ch, alGet st.activeNotes ch ≠ some []) :
    ∀ ch, alGet (stepOp st op).1.activeNotes ch ≠ some [] := by
  cases op with
  | message dev s d1 d2 =>
    rcases onMessage_shape st dev s d1 d2 with h1 | ⟨c, note, h1⟩ | ⟨c, note, h1⟩ <;>
      rw [show stepOp st (Op.message dev s d1 d2) = onMessage st dev s d1 d2 from rfl, h1]
    · exact h
    · exact trackNoteOn_noEmpty st c note dev h
    · exact trackNoteOff_noEmpty st c note dev h
  | disconnect d =>
    intro ch
    rw [show (stepOp st (Op.disconnect d)).1 = (handleDeviceDisconnect st d).1 from rfl,
      (handleDeviceDisconnect_fields st d).2.2]
    exact h ch

end HuMIDI

namespace HuMIDI

theorem deviceGateBlocks_of_no_inputs (st : HState) (dev : Option String)
    (h : st.inputs = []) : deviceGateBlocks st dev = false := by
  cases dev with
  | none => rfl
  | some inputId =>
    unfold deviceGateBlocks
    rw [h]
    rfl

theorem G_onMessage (st : HState) (dev : Option String) (s d1 d2 : Nat)
    (he : st.enabled = true) (hg : deviceGateBlocks st dev = false) (ch : Int) (n : Nat) :
    noteInGlobal (onMessage st dev s d1 d2).1 ch n ↔
      noteActionApply (opNoteAction (Op.message dev s d1 d2) ch n)
        (noteInGlobal st ch n) := by
  rw [onMessage_open st dev s d1 d2 he hg]
  unfold processCommand opNoteAction
  dsimp only
  cases hct : commandTable s with
  | none =>
    dsimp only [noteActionApply]
    exact Iff.rfl
  | some cmd =>
    cases cmd with
    | noteon =>
      dsimp only
      rw [onNoteOn_state]
      by_cases hv : d2 = 0
      · rw [if_pos hv, G_trackNoteOff]
        by_cases hm : ((s : Int) - 144 = ch ∧ d1 = n)
        · obtain ⟨hm1, hm2⟩ := hm
          subst hm2
          simp [noteActionApply, hv, hm1, commandIndex]
        · rw [if_neg hm]
          have hm' : ¬(((s : Int) - ((commandIndex Command.noteon : Nat) : Int)) = ch ∧
              n = d1) := by
            rintro ⟨ha, hb⟩
            exact hm ⟨by simpa [commandIndex] using ha, hb.symm⟩
          simp [noteActionApply, hm']
      · rw [if_neg hv, G_trackNoteOn]
        by_cases hm : ((s : Int) - 144 = ch ∧ d1 = n)
        · obtain ⟨hm1, hm2⟩ := hm
          subst hm2
          simp [noteActionApply, hv, hm1, commandIndex]
        · rw [if_neg hm]
          have hm' : ¬(((s : Int) - ((commandIndex Command.noteon : Nat) : Int)) = ch ∧
              n = d1) := by
            rintro ⟨ha, hb⟩
            exact hm ⟨by simpa [commandIndex] using ha, hb.symm⟩
          simp [noteActionApply, hm']
    | noteoff =>
      dsimp only
      rw [show (onNoteOff st ((s : Int) - ((commandIndex Command.noteoff : Nat) : Int))
          d1 dev).1 = trackNoteOff st ((s : Int) - ((commandIndex Command.noteoff : Nat) : Int))
          d1 dev from rfl, G_trackNoteOff]
      by_cases hm : ((s : Int) - 128 = ch ∧ d1 = n)
      · obtain ⟨hm1, hm2⟩ := hm
        subst hm2
        simp [noteActionApply, hm1, commandIndex]
      · rw [if_neg hm]
        have hm' : ¬(((s : Int) - ((commandIndex Command.noteoff : Nat) : Int)) = ch ∧
            n = d1) := by
          rintro ⟨ha, hb⟩
          exact hm ⟨by simpa [commandIndex] using ha, hb.symm⟩
        simp [noteActionApply, hm']
    | pitchbend =>
      dsimp only [noteActionApply]
      rw [show (onPitchBend st ((s : Int) - ((commandIndex Command.pitchbend : Nat) : Int))
          d1 d2).1 = st from rfl]
    | controlchange =>
      dsimp only [noteActionApply]
      rw [onControlChange_state]

theorem G_stepOp (st : HState) (op : Op) (ch : Int) (n : Nat)
    (he : st.enabled = true) (hinp : st.inputs = []) :
    noteInGlobal (stepOp st op).1 ch n ↔
      noteActionApply (opNoteAction op ch n) (noteInGlobal st ch n) := by
  cases op with
  | message dev s d1 d2 =>
    exact G_onMessage st dev s d1 d2 he (deviceGateBlocks_of_no_inputs st dev hinp) ch n
  | disconnect d =>
    unfold noteInGlobal
    rw [show (stepOp st (Op.disconnect d)).1 = (handleDeviceDisconnect st d).1 from rfl,
      (handleDeviceDisconnect_fields st d).2.2]
    exact Iff.rfl

theorem run_append (st : HState) (l1 l2 : List Op) :
    run st (l1 ++ l2) =
      ((run (run st l1).1 l2).1, (run st l1).2 ++ (run (run st l1).1 l2).2) := by
  induction l1 generalizing st with
  | nil => simp [run]
  | cons op rest ih =>
    simp only [List.cons_append, run, List.append_eq]
    rw [ih]
    simp [List.append_assoc]

theorem lastMsgNoteAction_concat (ops : List Op) (op : Op) (ch : Int) (n : Nat) :
    lastMsgNoteAction (ops ++ [op]) ch n =
      match opNoteAction op ch n with
      | some b => some b
      | none => lastMsgNoteAction ops ch n := by
  unfold lastMsgNoteAction
  rw [List.filterMap_append]
  cases ha : opNoteAction op ch n with
  | some b => simp [List.filterMap, ha]
  | none => simp [List.filterMap, ha]

theorem run_invariant (ops : List Op) :
    (run initState ops).1.enabled = true ∧
    (run initState ops).1.inputs = [] ∧
    (∀ ch, alGet (run initState ops).1.activeNotes ch ≠ some []) ∧
    (∀ (ch : Int) (n : Nat),
      noteInGlobal (run initState ops).1 ch n ↔ lastMsgNoteAction ops ch n = some true) := by
  induction ops using List.reverseRecOn with
  | nil =>
    refine ⟨rfl, rfl, fun ch => ?_, fun ch n => ?_⟩
    · simp [run, initState, alGet]
    · simp [run, initState, noteInGlobal, alGet, lastMsgNoteAction]
  | append_singleton ops op ih =>
    obtain ⟨ihe, ihi, ihne, ihG⟩ := ih
    have hstep : (run initState (ops ++ [op])).1 = (stepOp (run initState ops).1 op).1 := by
      rw [run_append]
      rfl
    refine ⟨?_, ?_, ?_, ?_⟩
    · rw [hstep, (stepOp_fields _ op).1, ihe]
    · rw [hstep, (stepOp_fields _ op).2, ihi]
    · intro ch
      rw [hstep]
      exact stepOp_noEmpty _ op ihne ch
    · intro ch n
      rw [lastMsgNoteAction_concat]
      unfold noteInGlobal
      rw [hstep]
      rw [show (n ∈ (alGet (stepOp (run initState ops).1 op).1.activeNotes ch).getD []) =
          noteInGlobal (stepOp (run initState ops).1 op).1 ch n from rfl]
      rw [G_stepOp _ op ch n ihe ihi]
      cases ha : opNoteAction op ch n with
      | some b => simp [noteActionApply]
      | none => simpa [noteActionApply] using ihG ch n

/-- C2 counterexample: after a note-on for note 60 on channel 0 from device "d"
followed by that device's disconnect, the most recent note event in the
emission trace for (0, 60) is the synthetic note-off, yet note 60 is still a
member of the global channel-0 sounding-note set — the disconnect-triggered
synthetic note-off does not remove notes from the global map. -/
theorem global_tracking_counterexample :
    lastNoteEvent
        (run initState [Op.message (some "d") 144 60 100, Op.disconnect "d"]).2 0 60 =
      some false ∧
    noteInGlobal
        (run initState [Op.message (some "d") 144 60 100, Op.disconnect "d"]).1 0 60 := by
  constructor
  · decide
  · decide

/-- C2 (amended): for every sequence of processed note messages and device
disconnects, a note is in the global per-channel sounding-note set iff the
most recent note message for that (channel, note) was a note-on with positive
velocity — an explicit note-off (or velocity-0 note-on) removes it, a device
disconnect leaves the global map unchanged (only the per-device entry is
discarded) — and channel entries whose set becomes empty are deleted from the
map, so an empty set is never stored. -/
theorem global_tracking_invariant (ops : List Op) (ch : Int) (n : Nat) :
    (noteInGlobal (run initState ops).1 ch n ↔ lastMsgNoteAction ops ch n = some true) ∧
    alGet (run initState ops).1.activeNotes ch ≠ some [] :=
  ⟨(run_invariant ops).2.2.2 ch n, (run_invariant ops).2.2.1 ch⟩

end HuMIDI
